import Mathlib

/-!
Verification of the six-axis force sensor acquisition core
(src/six_axis_force_sensor.py) and its polling controller
(src/qt_app.py, class SensorController).

Modelling conventions:
- Python floats are modelled as rationals (ℚ); all arithmetic appearing in
  the claims (scaling, bias subtraction, averaging over exact inputs) is
  exact in both.
- The Modbus transport is external. A single call to the client's
  read_holding_registers for one calling convention is modelled by an
  Attempt outcome. A whole invocation of the per-register reader is driven
  by an environment function giving, for the k-th register read performed,
  the list of outcomes the client would produce for the successive calling
  conventions tried.
- Python exceptions are modelled by Except; an operation that raises leaves
  exactly the mutations it performed before the raise, which the
  definitions reproduce explicitly.
-/

/-- Errors surfaced by the acquisition engine. configError models Python
ValueError for invalid static parameters; acquisitionError models the
RuntimeError raised when every register-read calling convention is
exhausted (it names the failing device id); transportFault models any
other exception raised by the transport, carrying its message. -/
inductive SensorErr where
  | configError (msg : String)
  | acquisitionError (device_id : Nat)
  | transportFault (msg : String)
  deriving DecidableEq, Repr

/-- Outcome of one read_holding_registers call under one calling
convention: ok regs models a response object whose registers field holds
regs; noResp models a None response or one without a registers field;
typeErr models a raised TypeError (argument-convention mismatch); fault
models any other raised exception. -/
inductive Attempt where
  | ok (regs : List Nat)
  | noResp
  | typeErr
  | fault (msg : String)
  deriving DecidableEq, Repr

deriving instance DecidableEq for Except

/-- Python helper _u16_to_s16 (six_axis_force_sensor.py lines 10-12):
value &= 0xFFFF, then value - 0x10000 if value & 0x8000 else value. -/
def u16_to_s16 (value : Nat) : Int :=
  let v := value &&& 0xFFFF
  if v &&& 0x8000 ≠ 0 then (v : Int) - 0x10000 else (v : Int)

/-- Method SixAxisForceSensor._read_u16 (lines 127-148), abstracted over
the list of outcomes of the successive calling-convention attempts (the
source tries five fixed variants in order). An attempt returning no
registers, or raising TypeError, falls through to the next variant; an
attempt returning at least one register ends the loop with that register
masked to 16 bits; any other exception propagates at once (the source
only catches TypeError); exhausting the list raises the RuntimeError
naming the device id. The last_exc chaining of the source only affects
the exception cause, not which error is raised, and is not modelled. -/
def read_u16_attempts (variants : List Attempt) (device_id : Nat) :
    Except SensorErr Nat :=
  match variants with
  | [] => .error (.acquisitionError device_id)
  | .ok [] :: rest => read_u16_attempts rest device_id
  | .ok (r :: _) :: _ => .ok (r &&& 0xFFFF)
  | .noResp :: rest => read_u16_attempts rest device_id
  | .typeErr :: rest => read_u16_attempts rest device_id
  | .fault msg :: _ => .error (.transportFault msg)

/-- Attempts that make _read_u16 move on to the next calling convention:
an empty/absent register list or a TypeError. -/
def Attempt.skips : Attempt → Bool
  | .ok [] => true
  | .noResp => true
  | .typeErr => true
  | _ => false

/-- Immutable Wrench value (six_axis_force_sensor.py lines 15-25). -/
structure Wrench where
  fx : ℚ
  fy : ℚ
  fz : ℚ
  tx : ℚ
  ty : ℚ
  tz : ℚ
  deriving DecidableEq, Repr

/-- Zero wrench, the initial bias and the value emitted on poll failure. -/
def zeroWrench : Wrench := ⟨0, 0, 0, 0, 0, 0⟩

/-- Method Wrench.as_tuple (line 24-25). -/
def Wrench.as_tuple (w : Wrench) : ℚ × ℚ × ℚ × ℚ × ℚ × ℚ :=
  (w.fx, w.fy, w.fz, w.tx, w.ty, w.tz)

/-- State of a SixAxisForceSensor: the fixed axis address table, the scale
factor and the mutable bias vector. The transport handle itself is
abstracted by the environment passed to each reading operation. -/
structure SensorState where
  axis_device_ids : List Nat
  addresses : List Nat
  n_per_count : ℚ
  bias : Wrench
  deriving DecidableEq, Repr

/-- Environment driving the reads: env k is the list of calling-convention
outcomes the transport produces during the k-th single-register read
performed by the engine. -/
def Env : Type := Nat → List Attempt

/-- Scale factor computed by __init__ (lines 59-61): the explicit override
when supplied, otherwise force_range_n / counts_full_scale. -/
def derived_scale (n_per_count : Option ℚ) (force_range_n : ℚ)
    (counts_full_scale : ℚ) : ℚ :=
  match n_per_count with
  | some q => q
  | none => force_range_n / counts_full_scale

/-- Constructor SixAxisForceSensor.__init__ (lines 44-75) restricted to the
fields the claims are about. The address argument is either one scalar
broadcast to every axis or a per-axis list whose length must match the
device id list; the scale factor must be strictly positive; the bias
starts at zero. -/
def mk_sensor (address : Sum Nat (List Nat)) (axis_device_ids : List Nat)
    (n_per_count : Option ℚ) (force_range_n : ℚ) (counts_full_scale : ℚ) :
    Except SensorErr SensorState :=
  if derived_scale n_per_count force_range_n counts_full_scale ≤ 0 then
    .error (.configError "n_per_count must be > 0")
  else
    match address with
    | .inl a =>
      .ok ⟨axis_device_ids, axis_device_ids.map (fun _ => a),
           derived_scale n_per_count force_range_n counts_full_scale, zeroWrench⟩
    | .inr addrs =>
      if addrs.length ≠ axis_device_ids.length then
        .error (.configError "address sequence length must match axis_device_ids length")
      else
        .ok ⟨axis_device_ids, addrs,
             derived_scale n_per_count force_range_n counts_full_scale, zeroWrench⟩

/-- Property setter n_per_count (lines 81-86): rejects non-positive values
with ValueError, otherwise stores the value. -/
def set_n_per_count (st : SensorState) (value : ℚ) :
    Except SensorErr SensorState :=
  if value ≤ 0 then .error (.configError "n_per_count must be > 0")
  else .ok { st with n_per_count := value }

/-- Loop body of read_raw_u16 (lines 150-154): one _read_u16 per
(device_id, address) pair in table order, all-or-nothing. The clock
counts single-register reads performed so far and selects the
environment entry for each. -/
def read_raw_aux (env : Env) :
    List (Nat × Nat) → Nat → Except SensorErr (List Nat × Nat)
  | [], clock => .ok ([], clock)
  | (device_id, _) :: rest, clock =>
    match read_u16_attempts (env clock) device_id with
    | .error e => .error e
    | .ok v =>
      match read_raw_aux env rest (clock + 1) with
      | .error e => .error e
      | .ok (vs, c2) => .ok (v :: vs, c2)

/-- Method read_raw_u16 (lines 150-154). -/
def read_raw_u16 (st : SensorState) (env : Env) (clock : Nat) :
    Except SensorErr (List Nat × Nat) :=
  read_raw_aux env (st.axis_device_ids.zip st.addresses) clock

/-- Method read_counts (lines 156-157): the raw-to-signed transform applied
to each raw value in order. -/
def read_counts (st : SensorState) (env : Env) (clock : Nat) :
    Except SensorErr (List Int × Nat) :=
  match read_raw_u16 st env clock with
  | .error e => .error e
  | .ok (vs, c2) => .ok (vs.map u16_to_s16, c2)

/-- Method get_wrench (lines 159-178): scale the first three counts (a
missing count contributes 0), torque fixed at 0; subtract the bias
component-wise unless unbiased is requested. -/
def get_wrench (st : SensorState) (env : Env) (clock : Nat)
    (unbiased : Bool) : Except SensorErr (Wrench × Nat) :=
  match read_counts st env clock with
  | .error e => .error e
  | .ok (counts, c1) =>
    let fx : ℚ := (counts.getD 0 0 : Int) * st.n_per_count
    let fy : ℚ := (counts.getD 1 0 : Int) * st.n_per_count
    let fz : ℚ := (counts.getD 2 0 : Int) * st.n_per_count
    let w : Wrench := ⟨fx, fy, fz, 0, 0, 0⟩
    if unbiased then .ok (w, c1)
    else
      .ok (⟨w.fx - st.bias.fx, w.fy - st.bias.fy, w.fz - st.bias.fz,
            w.tx - st.bias.tx, w.ty - st.bias.ty, w.tz - st.bias.tz⟩, c1)

/-- Sampling loop of bias (lines 197-203): samples consecutive unbiased
reads accumulated into per-component sums; any failure aborts the loop.
The inter-sample delay only sleeps and is not modelled. -/
def bias_sample_loop (st : SensorState) (env : Env) :
    Nat → Nat → ℚ → ℚ → ℚ → Except SensorErr (ℚ × ℚ × ℚ × Nat)
  | clock, 0, sum_fx, sum_fy, sum_fz => .ok (sum_fx, sum_fy, sum_fz, clock)
  | clock, n + 1, sum_fx, sum_fy, sum_fz =>
    match get_wrench st env clock true with
    | .error e => .error e
    | .ok (w, c1) =>
      bias_sample_loop st env c1 n (sum_fx + w.fx) (sum_fy + w.fy) (sum_fz + w.fz)

/-- Method bias (lines 187-206). Requires samples > 0 (ValueError
otherwise); on success commits the averaged wrench as the new bias and
returns it; when a read raises, the error propagates and the state is
exactly the input state, since the source assigns the bias only after
the loop completes. The returned Nat is the clock after the reads. -/
def SensorState.bias_op (st : SensorState) (env : Env) (clock : Nat)
    (samples : Int) : Except SensorErr Wrench × SensorState × Nat :=
  if samples ≤ 0 then (.error (.configError "samples must be > 0"), st, clock)
  else
    match bias_sample_loop st env clock samples.toNat 0 0 0 with
    | .error e => (.error e, st, clock)
    | .ok (sum_fx, sum_fy, sum_fz, c2) =>
      let b : Wrench :=
        ⟨sum_fx / (samples : ℚ), sum_fy / (samples : ℚ), sum_fz / (samples : ℚ), 0, 0, 0⟩
      (.ok b, { st with bias := b }, c2)

/-- Method unbias (lines 208-209): reset the bias to zero, no I/O. -/
def unbias (st : SensorState) : SensorState :=
  { st with bias := zeroWrench }

/-- Mutable state of SensorController (qt_app.py lines 90-99): the
connected flag and the last_error string. The wrapped engine is
abstracted by the outcomes fed to each operation. -/
structure Controller where
  connected : Bool
  last_error : String
  deriving DecidableEq, Repr

/-- Method SensorController._ensure_connected (qt_app.py lines 121-132),
abstracted over the outcome of the sensor.connect() call (a returned
Bool, or a raised exception carrying its message). Returns the Bool the
method returns together with the updated controller state. When already
connected it returns True at once; otherwise it stores the connect
result in the connected flag, records "connect() returned False" when
that result is false, and on a raised error clears the flag and records
the message. -/
def ensure_connected (c : Controller) (connectRes : Except String Bool) :
    Bool × Controller :=
  if c.connected then (true, c)
  else
    match connectRes with
    | .ok b =>
      if b then (true, { c with connected := true })
      else (false, { connected := false, last_error := "connect() returned False" })
    | .error e => (false, { connected := false, last_error := e })

/-- Emission on the updated signal: the six wrench components, the
message, and the connected flag (qt_app.py line 91). -/
def Emission : Type := Wrench × String × Bool

/-- Method SensorController.poll (qt_app.py lines 134-145), abstracted
over the connect outcome consumed by _ensure_connected and the outcome
of the get_force_torque call (a Wrench, or a raised exception carrying
its message; the read outcome is only consulted when the connection
check passed). When _ensure_connected fails, the source raises
RuntimeError(last_error or "not connected") inside its own try block
and catches it below, so the recorded and emitted message is the
last_error after the failed check, or "not connected" when that string
is empty. Every branch ends in an emit: the method never raises. -/
def poll (c : Controller) (connectRes : Except String Bool)
    (readRes : Except String Wrench) : Controller × Emission :=
  let ec := ensure_connected c connectRes
  if ec.1 then
    match readRes with
    | .ok w => ({ ec.2 with last_error := "Modbus OK" }, (w, "Modbus OK", true))
    | .error e =>
      ({ connected := false, last_error := e }, (zeroWrench, e, false))
  else
    let msg := if ec.2.last_error = "" then "not connected" else ec.2.last_error
    ({ connected := false, last_error := msg }, (zeroWrench, msg, false))

/-- Modelled from the spec: the spec's toUnsigned, the inverse of the
raw-to-signed transform, mapping a signed 16-bit value to its unsigned
16-bit representation. The source has no such function; the round-trip
testable property of the spec needs it. -/
def toUnsigned (s : Int) : Nat :=
  (s % 65536).toNat

/-- States reachable from a given engine state through the mutating engine
operations: unbias, bias (whatever its outcome), and the n_per_count
setter (when it succeeds). Reading operations do not mutate the state. -/
inductive Reachable : SensorState → SensorState → Prop
  | refl (st : SensorState) : Reachable st st
  | unbias_step (st0 st : SensorState) :
      Reachable st0 st → Reachable st0 (unbias st)
  | bias_step (st0 st : SensorState) (env : Env) (clock : Nat) (samples : Int) :
      Reachable st0 st → Reachable st0 (st.bias_op env clock samples).2.1
  | scale_step (st0 st st2 : SensorState) (v : ℚ) :
      Reachable st0 st → set_n_per_count st v = .ok st2 → Reachable st0 st2

/-- List of the wrenches produced by n consecutive unbiased get_wrench
calls starting at the given clock, with the clock after them; the
sampling phase of bias described independently of its running sums. -/
def unbiasedSamples (st : SensorState) (env : Env) :
    Nat → Nat → Except SensorErr (List Wrench × Nat)
  | clock, 0 => .ok ([], clock)
  | clock, n + 1 =>
    match get_wrench st env clock true with
    | .error e => .error e
    | .ok (w, c1) =>
      match unbiasedSamples st env c1 n with
      | .error e => .error e
      | .ok (ws, c2) => .ok (w :: ws, c2)

/-- Arithmetic mean of the force components of a list of wrenches over a
sample count, torque fixed at zero. -/
def meanWrench (ws : List Wrench) (n : Int) : Wrench :=
  ⟨(ws.map Wrench.fx).sum / (n : ℚ), (ws.map Wrench.fy).sum / (n : ℚ),
   (ws.map Wrench.fz).sum / (n : ℚ), 0, 0, 0⟩

/-- Concrete one-axis engine state used to instantiate theorems: device id
1, register address 0, unit scale, zero bias. -/
def sampleState : SensorState := ⟨[1], [0], 1, zeroWrench⟩

/-- Environment whose every register read succeeds on the first calling
convention with the raw value 40000 (signed -25536). -/
def oneAxisEnv : Env := fun _ => [.ok [40000]]

/-- Environment whose every register read raises a non-TypeError transport
exception on the first calling convention. -/
def failEnv : Env := fun _ => [.fault "io error"]

/-- Environment producing raw values 10, 20, 30 on the first three
register reads, on the first calling convention. -/
def biasEnv : Env := fun k =>
  if k = 0 then [.ok [10]] else if k = 1 then [.ok [20]] else [.ok [30]]

/-! ### Helper lemmas about the bitwise operations of the conversion unit -/

/-- Masking with 0xFFFF is reduction mod 2^16. -/
lemma land_ffff (n : Nat) : n &&& 65535 = n % 65536 := by
  have h := Nat.and_pow_two_sub_one_eq_mod n 16
  norm_num at h
  exact h

/-- For a 16-bit value, testing bit 15 is comparing with 32768. -/
lemma land_8000_iff (v : Nat) (h : v < 65536) : (v &&& 32768 ≠ 0) ↔ 32768 ≤ v := by
  have h1 := Nat.and_two_pow v 15
  have h2 : v.testBit 15 = decide (v / 2 ^ 15 % 2 = 1) := Nat.testBit_to_div_mod
  rcases hb : v.testBit 15 <;> rw [hb] at h1 h2 <;> norm_num at h1 h2 <;> omega

/-- Closed form of the raw-to-signed transform on 16-bit inputs. -/
lemma u16_to_s16_eq (v : Nat) (h : v < 65536) :
    u16_to_s16 v = if v < 32768 then (v : Int) else (v : Int) - 65536 := by
  unfold u16_to_s16
  have hm : v &&& 65535 = v := by rw [land_ffff]; omega
  simp only [hm]
  rcases lt_or_le v 32768 with hv | hv
  · rw [if_neg, if_pos hv]
    simp only [ne_eq, not_not]
    have := (land_8000_iff v h).not
    omega
  · rw [if_pos, if_neg (by omega)]
    exact (land_8000_iff v h).mpr hv

/-- Skipped attempts advance the reader to the next calling convention. -/
lemma read_u16_skip (a : Attempt) (rest : List Attempt) (d : Nat)
    (h : a.skips = true) :
    read_u16_attempts (a :: rest) d = read_u16_attempts rest d := by
  cases a with
  | ok regs => cases regs with
    | nil => rfl
    | cons r rs => simp [Attempt.skips] at h
  | noResp => rfl
  | typeErr => rfl
  | fault msg => simp [Attempt.skips] at h

/-- A run of skipped attempts advances the reader past all of them. -/
lemma read_u16_skip_list (pre rest : List Attempt) (d : Nat)
    (h : ∀ a ∈ pre, a.skips = true) :
    read_u16_attempts (pre ++ rest) d = read_u16_attempts rest d := by
  induction pre with
  | nil => rfl
  | cons a pre ih =>
    rw [List.cons_append, read_u16_skip a (pre ++ rest) d (h a (List.mem_cons_self a pre))]
    exact ih fun a ha => h a (List.mem_cons_of_mem _ ha)

/-- C1: for every raw unsigned 16-bit value, the raw-to-signed transform
used by read_counts returns v when v < 32768 and v - 65536 otherwise;
read_counts applies it to each raw value preserving table order; and
toSigned (toUnsigned s) = s for every s in [-32768, 32767]. -/
theorem readCounts_signed_transform :
    (∀ v : Nat, v < 65536 →
      u16_to_s16 v = if v < 32768 then (v : Int) else (v : Int) - 65536) ∧
    (∀ s : Int, -32768 ≤ s → s < 32768 → u16_to_s16 (toUnsigned s) = s) ∧
    (∀ (st : SensorState) (env : Env) (clock : Nat) (vs : List Nat) (c2 : Nat),
      read_raw_u16 st env clock = .ok (vs, c2) →
      read_counts st env clock = .ok (vs.map u16_to_s16, c2)) := by
  refine ⟨u16_to_s16_eq, ?_, ?_⟩
  · intro s h1 h2
    have hlt : (s % 65536).toNat < 65536 := by omega
    rw [toUnsigned, u16_to_s16_eq _ hlt]
    split <;> omega
  · intro st env clock vs c2 h
    simp [read_counts, h]

/-- Witness: the transform and round-trip at the spec's concrete values
40000 (signed -25536) and 10000 (signed 10000). -/
theorem readCounts_signed_transform_witness :
    u16_to_s16 40000 = -25536 ∧ u16_to_s16 10000 = 10000 ∧
    u16_to_s16 (toUnsigned (-25536)) = -25536 := by
  refine ⟨?_, ?_, readCounts_signed_transform.2.1 (-25536) (by decide) (by decide)⟩
  · have h := readCounts_signed_transform.1 40000 (by decide)
    norm_num at h
    exact h
  · have h := readCounts_signed_transform.1 10000 (by decide)
    norm_num at h
    exact h

/-- C5: the register reader tries the calling conventions in their fixed
order and returns the masked first register of the first attempt that
succeeds with at least one register; attempts with no registers or a
type/arity mismatch fall through to the next convention; exhausting
every convention is a single acquisition error naming the device id. -/
theorem read_u16_convention_fallback :
    (∀ (pre rest : List Attempt) (r : Nat) (rs : List Nat) (d : Nat),
      (∀ a ∈ pre, a.skips = true) →
      read_u16_attempts (pre ++ .ok (r :: rs) :: rest) d = .ok (r &&& 65535)) ∧
    (∀ (variants : List Attempt) (d : Nat),
      (∀ a ∈ variants, a.skips = true) →
      read_u16_attempts variants d = .error (.acquisitionError d)) := by
  constructor
  · intro pre rest r rs d h
    rw [read_u16_skip_list pre _ d h]
    rfl
  · intro variants d h
    rw [show variants = variants ++ [] by simp, read_u16_skip_list variants [] d h]
    rfl

/-- Witness: with the first two conventions skipped (empty response, then
TypeError) the third convention's register 40000 is accepted; and five
skipping attempts exhaust into the acquisition error naming device 7. -/
theorem read_u16_convention_fallback_witness :
    read_u16_attempts [.ok [], .typeErr, .ok [40000, 1], .fault "io", .noResp] 7
      = .ok 40000 ∧
    read_u16_attempts [.ok [], .typeErr, .noResp, .typeErr, .ok []] 7
      = .error (.acquisitionError 7) := by
  constructor
  · have h := read_u16_convention_fallback.1 [.ok [], .typeErr]
      [.fault "io", .noResp] 40000 [1] 7 (by decide)
    simpa using h
  · exact read_u16_convention_fallback.2 [.ok [], .typeErr, .noResp, .typeErr, .ok []]
      7 (by decide)

/-- C10: an attempt that raises anything other than a type/arity mismatch
propagates its error immediately: the remaining conventions are not
tried, the error is not wrapped into the device-naming acquisition
error, and the per-axis read loop passes it straight to its caller. -/
theorem read_u16_fault_propagates :
    (∀ (pre rest : List Attempt) (msg : String) (d : Nat),
      (∀ a ∈ pre, a.skips = true) →
      read_u16_attempts (pre ++ .fault msg :: rest) d =
        .error (.transportFault msg)) ∧
    (∀ (env : Env) (d a : Nat) (rest : List (Nat × Nat)) (clock : Nat)
      (e : SensorErr), read_u16_attempts (env clock) d = .error e →
      read_raw_aux env ((d, a) :: rest) clock = .error e) := by
  constructor
  · intro pre rest msg d h
    rw [read_u16_skip_list pre _ d h]
    rfl
  · intro env d a rest clock e h
    simp [read_raw_aux, h]

/-- Witness: a transport fault after two skipped conventions surfaces as
itself even though conventions remain, and is not the acquisition
error. -/
theorem read_u16_fault_propagates_witness :
    read_u16_attempts [.ok [], .typeErr, .fault "io error", .ok [5], .noResp] 7
      = .error (.transportFault "io error") ∧
    read_raw_aux failEnv [(1, 0)] 0 = .error (.transportFault "io error") := by
  constructor
  · exact read_u16_fault_propagates.1 [.ok [], .typeErr] [.ok [5], .noResp]
      "io error" 7 (by decide)
  · exact read_u16_fault_propagates.2 failEnv 1 0 [] 0
      (.transportFault "io error") (by decide)

/-- A successful connection check leaves the controller connected. -/
lemma ensure_connected_fst_true (c : Controller) (res : Except String Bool)
    (h : (ensure_connected c res).1 = true) :
    (ensure_connected c res).2.connected = true := by
  obtain ⟨cc, le⟩ := c
  cases cc
  · cases res with
    | error e => simp_all [ensure_connected]
    | ok b => cases b <;> simp_all [ensure_connected]
  · rfl

/-- C6 as stated is false at a concrete input: with the controller
disconnected and last_error "boom", a connect call that returns true
makes ensure_connected succeed but leaves last_error equal to "boom"
instead of clearing it. -/
theorem ensure_connected_keeps_stale_error :
    (ensure_connected ⟨false, "boom"⟩ (.ok true)).1 = true ∧
    (ensure_connected ⟨false, "boom"⟩ (.ok true)).2.last_error = "boom" ∧
    "boom" ≠ "" := by
  refine ⟨rfl, rfl, by decide⟩

/-- C6 (amended): ensure_connected is a no-op success when already
connected; when disconnected it calls connect, and on a true return it
transitions to connected leaving last_error unchanged, on a false
return it stays disconnected recording "connect() returned False" and
returns failure, and on a raised error it stays disconnected recording
the message and returns failure. -/
theorem ensure_connected_spec (c : Controller) (res : Except String Bool) :
    (c.connected = true → ensure_connected c res = (true, c)) ∧
    (c.connected = false →
      (res = .ok true → ensure_connected c res = (true, ⟨true, c.last_error⟩)) ∧
      (res = .ok false → ensure_connected c res =
        (false, ⟨false, "connect() returned False"⟩)) ∧
      (∀ e, res = .error e →
        ensure_connected c res = (false, ⟨false, e⟩))) := by
  obtain ⟨cc, le⟩ := c
  cases cc
  · refine ⟨fun h => by simp at h,
      fun _ => ⟨fun hr => ?_, fun hr => ?_, fun e hr => ?_⟩⟩ <;> subst hr <;> rfl
  · exact ⟨fun _ => rfl, fun h => by simp at h⟩

/-- Witness: the amended C6 at a connected controller and at a
disconnected controller whose connect call succeeds. -/
theorem ensure_connected_spec_witness :
    ensure_connected ⟨true, "old"⟩ (.ok false) = (true, ⟨true, "old"⟩) ∧
    ensure_connected ⟨false, "old"⟩ (.ok true) = (true, ⟨true, "old"⟩) ∧
    ensure_connected ⟨false, "old"⟩ (.error "refused") =
      (false, ⟨false, "refused"⟩) := by
  refine ⟨(ensure_connected_spec ⟨true, "old"⟩ (.ok false)).1 rfl,
    ((ensure_connected_spec ⟨false, "old"⟩ (.ok true)).2 rfl).1 rfl,
    ((ensure_connected_spec ⟨false, "old"⟩ (.error "refused")).2 rfl).2.2
      "refused" rfl⟩

/-- C2: poll is a total function of its inputs (it never raises outward);
when the connection check fails it records a message, forces the
disconnected state and emits the zero wrench with that message and
connected = false; when the biased read raises it does the same with
the raised message; on full success it emits the read wrench with the
"Modbus OK" message and connected = true. -/
theorem poll_spec (c : Controller) (cr : Except String Bool)
    (rr : Except String Wrench) :
    ((ensure_connected c cr).1 = false →
      ∃ m, poll c cr rr = (⟨false, m⟩, (zeroWrench, m, false))) ∧
    ((ensure_connected c cr).1 = true → ∀ m, rr = .error m →
      poll c cr rr = (⟨false, m⟩, (zeroWrench, m, false))) ∧
    ((ensure_connected c cr).1 = true → ∀ w, rr = .ok w →
      poll c cr rr = (⟨true, "Modbus OK"⟩, (w, "Modbus OK", true))) := by
  refine ⟨fun h => ?_, fun h m hm => ?_, fun h w hw => ?_⟩
  · refine ⟨if (ensure_connected c cr).2.last_error = "" then "not connected"
      else (ensure_connected c cr).2.last_error, ?_⟩
    simp [poll, h]
  · simp [poll, h, hm]
  · have h2 := ensure_connected_fst_true c cr h
    rcases he : ensure_connected c cr with ⟨b, cc, le⟩
    rw [he] at h h2
    simp at h h2
    subst h h2
    simp [poll, he, hw]

/-- Witness: poll on a disconnected controller whose connect succeeds and
whose read returns the zero wrench, and poll whose read raises. -/
theorem poll_spec_witness :
    poll ⟨false, ""⟩ (.ok true) (.ok zeroWrench) =
      (⟨true, "Modbus OK"⟩, (zeroWrench, "Modbus OK", true)) ∧
    poll ⟨true, ""⟩ (.ok true) (.error "read burst") =
      (⟨false, "read burst"⟩, (zeroWrench, "read burst", false)) ∧
    ∃ m, poll ⟨false, ""⟩ (.ok false) (.ok zeroWrench) =
      (⟨false, m⟩, (zeroWrench, m, false)) := by
  refine ⟨(poll_spec ⟨false, ""⟩ (.ok true) (.ok zeroWrench)).2.2 (by decide)
      zeroWrench rfl,
    (poll_spec ⟨true, ""⟩ (.ok true) (.error "read burst")).2.1 (by decide)
      "read burst" rfl,
    (poll_spec ⟨false, ""⟩ (.ok false) (.ok zeroWrench)).1 (by decide)⟩

/-- Running sums of the bias loop against the list of sampled wrenches:
when sampling succeeds the loop returns the accumulators plus the
component sums, and when sampling fails the loop fails with the same
error. -/
lemma bias_loop_of_samples (st : SensorState) (env : Env) :
    ∀ (n clock : Nat) (sx sy sz : ℚ),
      (∀ ws c2, unbiasedSamples st env clock n = .ok (ws, c2) →
        bias_sample_loop st env clock n sx sy sz =
          .ok (sx + (ws.map Wrench.fx).sum, sy + (ws.map Wrench.fy).sum,
               sz + (ws.map Wrench.fz).sum, c2)) ∧
      (∀ e, unbiasedSamples st env clock n = .error e →
        bias_sample_loop st env clock n sx sy sz = .error e) := by
  intro n
  induction n with
  | zero =>
    intro clock sx sy sz
    constructor
    · intro ws c2 h
      simp only [unbiasedSamples, Except.ok.injEq, Prod.mk.injEq] at h
      obtain ⟨h1, h2⟩ := h
      subst h1 h2
      simp [bias_sample_loop]
    · intro e h
      simp [unbiasedSamples] at h
  | succ n ih =>
    intro clock sx sy sz
    constructor
    · intro ws c2 h
      rw [unbiasedSamples] at h
      cases hg : get_wrench st env clock true with
      | error e => rw [hg] at h; simp at h
      | ok p =>
        obtain ⟨w, c1⟩ := p
        simp only [hg] at h
        cases hs : unbiasedSamples st env c1 n with
        | error e2 => simp only [hs] at h; simp at h
        | ok q =>
          obtain ⟨ws', c2'⟩ := q
          simp only [hs] at h
          simp only [Except.ok.injEq, Prod.mk.injEq] at h
          obtain ⟨h1, h2⟩ := h
          subst h1 h2
          have hloop := (ih c1 (sx + w.fx) (sy + w.fy) (sz + w.fz)).1 ws' c2' hs
          rw [bias_sample_loop]
          simp only [hg]
          rw [hloop]
          simp [add_assoc]
    · intro e h
      rw [unbiasedSamples] at h
      cases hg : get_wrench st env clock true with
      | error e2 =>
        rw [hg] at h
        simp only [Except.error.injEq] at h
        subst h
        rw [bias_sample_loop]
        simp [hg]
      | ok p =>
        obtain ⟨w, c1⟩ := p
        simp only [hg] at h
        cases hs : unbiasedSamples st env c1 n with
        | error e2 =>
          simp only [hs] at h
          simp only [Except.error.injEq] at h
          subst h
          rw [bias_sample_loop]
          simp only [hg]
          exact (ih c1 (sx + w.fx) (sy + w.fy) (sz + w.fz)).2 e2 hs
        | ok q => simp only [hs] at h; simp at h

/-- Sampling n times yields exactly n wrenches. -/
lemma unbiasedSamples_length (st : SensorState) (env : Env) :
    ∀ (n clock : Nat) (ws : List Wrench) (c2 : Nat),
      unbiasedSamples st env clock n = .ok (ws, c2) → ws.length = n := by
  intro n
  induction n with
  | zero =>
    intro clock ws c2 h
    simp only [unbiasedSamples, Except.ok.injEq, Prod.mk.injEq] at h
    rw [← h.1]
    rfl
  | succ n ih =>
    intro clock ws c2 h
    rw [unbiasedSamples] at h
    cases hg : get_wrench st env clock true with
    | error e => rw [hg] at h; simp at h
    | ok p =>
      obtain ⟨w, c1⟩ := p
      simp only [hg] at h
      cases hs : unbiasedSamples st env c1 n with
      | error e2 => simp only [hs] at h; simp at h
      | ok q =>
        obtain ⟨ws', c2'⟩ := q
        simp only [hs] at h
        simp only [Except.ok.injEq, Prod.mk.injEq] at h
        rw [← h.1, List.length_cons, ih c1 ws' c2' hs]

/-- C3: for every positive sample count, when any of the consecutive
unbiased reads of the sampling phase fails, the whole bias operation
aborts with that error and the engine state, in particular the bias
vector, is exactly the prior one: no partial average is committed. -/
theorem bias_abort_preserves_bias (st : SensorState) (env : Env) (clock : Nat)
    (samples : Int) (hs : 0 < samples) (e : SensorErr)
    (h : unbiasedSamples st env clock samples.toNat = .error e) :
    st.bias_op env clock samples = (.error e, st, clock) := by
  have hl := (bias_loop_of_samples st env samples.toNat clock 0 0 0).2 e h
  rw [SensorState.bias_op, if_neg (by omega), hl]

/-- Witness: a transport fault on the single sampled read aborts bias and
leaves the state untouched. -/
theorem bias_abort_preserves_bias_witness :
    sampleState.bias_op failEnv 0 1 =
      (.error (.transportFault "io error"), sampleState, 0) :=
  bias_abort_preserves_bias sampleState failEnv 0 1 (by decide)
    (.transportFault "io error") (by decide)

/-- C4: bias with a non-positive sample count fails with the configuration
error; with a positive count it performs exactly that many consecutive
unbiased reads, and when they all succeed it commits and returns the
wrench whose force components are the arithmetic means of the sampled
force components with torque fixed at zero. -/
theorem bias_averages (st : SensorState) (env : Env) (clock : Nat)
    (samples : Int) :
    (samples ≤ 0 → st.bias_op env clock samples =
      (.error (.configError "samples must be > 0"), st, clock)) ∧
    (0 < samples → ∀ ws c2,
      unbiasedSamples st env clock samples.toNat = .ok (ws, c2) →
      ws.length = samples.toNat ∧
      st.bias_op env clock samples =
        (.ok (meanWrench ws samples),
         { st with bias := meanWrench ws samples }, c2)) := by
  constructor
  · intro h
    rw [SensorState.bias_op, if_pos h]
  · intro hs ws c2 h
    refine ⟨unbiasedSamples_length st env samples.toNat clock ws c2 h, ?_⟩
    have hl := (bias_loop_of_samples st env samples.toNat clock 0 0 0).1 ws c2 h
    rw [SensorState.bias_op, if_neg (by omega), hl]
    simp [meanWrench]

/-- Witness: unbiased Fx samples 10, 20, 30 over three reads commit and
return bias Fx = 20, matching the spec's averaging example. -/
theorem bias_averages_witness :
    sampleState.bias_op biasEnv 0 3 =
      (.ok (⟨20, 0, 0, 0, 0, 0⟩ : Wrench),
       { sampleState with bias := (⟨20, 0, 0, 0, 0, 0⟩ : Wrench) }, 3) := by
  have e10 : u16_to_s16 10 = 10 := by decide
  have e20 : u16_to_s16 20 = 20 := by decide
  have e30 : u16_to_s16 30 = 30 := by decide
  have r10 : read_u16_attempts [.ok [10]] 1 = .ok 10 := by decide
  have r20 : read_u16_attempts [.ok [20]] 1 = .ok 20 := by decide
  have r30 : read_u16_attempts [.ok [30]] 1 = .ok 30 := by decide
  have h := (bias_averages sampleState biasEnv 0 3).2 (by decide)
    [⟨10, 0, 0, 0, 0, 0⟩, ⟨20, 0, 0, 0, 0, 0⟩, ⟨30, 0, 0, 0, 0, 0⟩] 3
    (by norm_num [unbiasedSamples, get_wrench, read_counts, read_raw_u16,
      read_raw_aux, sampleState, biasEnv, r10, r20, r30, e10, e20, e30])
  have hm : meanWrench
      [⟨10, 0, 0, 0, 0, 0⟩, ⟨20, 0, 0, 0, 0, 0⟩, ⟨30, 0, 0, 0, 0, 0⟩] 3 =
      (⟨20, 0, 0, 0, 0, 0⟩ : Wrench) := by
    norm_num [meanWrench]
  rw [h.2, hm]

/-- With a zero bias vector, a biased read equals the unbiased read over
the same inputs. -/
lemma get_wrench_zero_bias (st : SensorState) (h : st.bias = zeroWrench)
    (env : Env) (clock : Nat) :
    get_wrench st env clock false = get_wrench st env clock true := by
  rw [get_wrench, get_wrench]
  cases hc : read_counts st env clock with
  | error e => rfl
  | ok p =>
    obtain ⟨counts, c1⟩ := p
    simp [h, zeroWrench]

/-- C7: after bias with any positive sample count followed immediately by
unbias, a biased read returns the same wrench as an unbiased read over
the same raw inputs, because unbias resets the bias vector to zero
without I/O. -/
theorem bias_unbias_idempotent (st : SensorState) (env : Env) (clock : Nat)
    (samples : Int) (_hs : 0 < samples) (env2 : Env) (clock2 : Nat) :
    get_wrench (unbias (st.bias_op env clock samples).2.1) env2 clock2 false =
    get_wrench (unbias (st.bias_op env clock samples).2.1) env2 clock2 true :=
  get_wrench_zero_bias _ rfl env2 clock2

/-- Witness: after the three-sample bias and an unbias, the biased and
unbiased reads agree on a concrete environment. -/
theorem bias_unbias_idempotent_witness :
    get_wrench (unbias (sampleState.bias_op biasEnv 0 3).2.1) oneAxisEnv 0 false =
    get_wrench (unbias (sampleState.bias_op biasEnv 0 3).2.1) oneAxisEnv 0 true :=
  bias_unbias_idempotent sampleState biasEnv 0 3 (by decide) oneAxisEnv 0

/-- The bias operation never changes the address table or the scale
factor: whatever its outcome, only the bias field can differ. -/
lemma bias_op_fields (st : SensorState) (env : Env) (clock : Nat)
    (samples : Int) :
    (st.bias_op env clock samples).2.1.axis_device_ids = st.axis_device_ids ∧
    (st.bias_op env clock samples).2.1.addresses = st.addresses ∧
    (st.bias_op env clock samples).2.1.n_per_count = st.n_per_count := by
  rw [SensorState.bias_op]
  split
  · exact ⟨rfl, rfl, rfl⟩
  · split <;> exact ⟨rfl, rfl, rfl⟩

/-- A successful scale-factor mutation stores a positive value and touches
nothing else. -/
lemma set_n_per_count_ok (st : SensorState) (v : ℚ) (st2 : SensorState)
    (h : set_n_per_count st v = .ok st2) :
    0 < v ∧ st2 = { st with n_per_count := v } := by
  rw [set_n_per_count] at h
  split at h
  · exact absurd h (by simp)
  · next hv =>
    simp only [Except.ok.injEq] at h
    exact ⟨not_le.mp hv, h.symm⟩

/-- Reachable states keep the axis address table of the initial state. -/
lemma reachable_fields (st0 st : SensorState) (h : Reachable st0 st) :
    st.axis_device_ids = st0.axis_device_ids ∧ st.addresses = st0.addresses := by
  induction h with
  | refl => exact ⟨rfl, rfl⟩
  | unbias_step st hr ih => exact ih
  | bias_step st env clock samples hr ih =>
    have hb := bias_op_fields st env clock samples
    exact ⟨hb.1.trans ih.1, hb.2.1.trans ih.2⟩
  | scale_step st st2 v hr heq ih =>
    rw [(set_n_per_count_ok st v st2 heq).2]
    exact ih

/-- C9 support: reachable states keep a positive scale factor. -/
lemma reachable_scale_pos (st0 st : SensorState) (h0 : 0 < st0.n_per_count)
    (h : Reachable st0 st) : 0 < st.n_per_count := by
  induction h with
  | refl => exact h0
  | unbias_step st hr ih => exact ih
  | bias_step st env clock samples hr ih =>
    rw [(bias_op_fields st env clock samples).2.2]
    exact ih
  | scale_step st st2 v hr heq ih =>
    obtain ⟨hv, h2⟩ := set_n_per_count_ok st v st2 heq
    rw [h2]
    exact hv

/-- A successful all-axis raw read yields one value per table entry. -/
lemma read_raw_aux_length (env : Env) :
    ∀ (pairs : List (Nat × Nat)) (clock : Nat) (vs : List Nat) (c2 : Nat),
      read_raw_aux env pairs clock = .ok (vs, c2) → vs.length = pairs.length := by
  intro pairs
  induction pairs with
  | nil =>
    intro clock vs c2 h
    simp only [read_raw_aux, Except.ok.injEq, Prod.mk.injEq] at h
    rw [← h.1]
    rfl
  | cons p rest ih =>
    intro clock vs c2 h
    obtain ⟨d, a⟩ := p
    rw [read_raw_aux] at h
    cases hr : read_u16_attempts (env clock) d with
    | error e => simp [hr] at h
    | ok v =>
      simp only [hr] at h
      cases h2 : read_raw_aux env rest (clock + 1) with
      | error e => simp [h2] at h
      | ok q =>
        obtain ⟨vs', c2'⟩ := q
        simp only [h2, Except.ok.injEq, Prod.mk.injEq] at h
        rw [← h.1, List.length_cons, ih (clock + 1) vs' c2' h2]
        rfl

/-- A successful read_counts yields at most one count per configured
axis. -/
lemma read_counts_length (st : SensorState) (env : Env) (clock : Nat)
    (counts : List Int) (c1 : Nat)
    (h : read_counts st env clock = .ok (counts, c1)) :
    counts.length ≤ st.axis_device_ids.length := by
  rw [read_counts] at h
  cases hraw : read_raw_u16 st env clock with
  | error e => simp [hraw] at h
  | ok q =>
    obtain ⟨vs, cc⟩ := q
    simp only [hraw, Except.ok.injEq, Prod.mk.injEq] at h
    have hlen := read_raw_aux_length env (st.axis_device_ids.zip st.addresses)
      clock vs cc hraw
    rw [← h.1, List.length_map, hlen, List.length_zip]
    exact min_le_left _ _

/-- An unbiased read of a degraded engine leaves the missing force
channels at zero. -/
lemma get_wrench_unbiased_degraded (st : SensorState) (env : Env)
    (clock : Nat) (w : Wrench) (c2 : Nat)
    (h : get_wrench st env clock true = .ok (w, c2)) :
    (st.axis_device_ids.length ≤ 1 → w.fy = 0) ∧
    (st.axis_device_ids.length ≤ 2 → w.fz = 0) := by
  rw [get_wrench] at h
  cases hc : read_counts st env clock with
  | error e => simp [hc] at h
  | ok p =>
    obtain ⟨counts, c1⟩ := p
    simp only [hc, if_true, Except.ok.injEq, Prod.mk.injEq] at h
    have hlen := read_counts_length st env clock counts c1 hc
    obtain ⟨hw, -⟩ := h
    constructor
    · intro h1
      have hz : counts.getD 1 0 = 0 := List.getD_eq_default _ _ (by omega)
      have hfy : w.fy = ((counts.getD 1 0 : Int) : ℚ) * st.n_per_count := by
        rw [← hw]
      rw [hfy, hz]
      simp
    · intro h2
      have hz : counts.getD 2 0 = 0 := List.getD_eq_default _ _ (by omega)
      have hfz : w.fz = ((counts.getD 2 0 : Int) : ℚ) * st.n_per_count := by
        rw [← hw]
      rw [hfz, hz]
      simp

/-- A biased read of a degraded engine whose bias is itself zero on the
missing channels leaves those channels at zero. -/
lemma get_wrench_biased_degraded (st : SensorState) (env : Env)
    (clock : Nat) (w : Wrench) (c2 : Nat)
    (h : get_wrench st env clock false = .ok (w, c2)) :
    (st.axis_device_ids.length ≤ 1 → st.bias.fy = 0 → w.fy = 0) ∧
    (st.axis_device_ids.length ≤ 2 → st.bias.fz = 0 → w.fz = 0) := by
  rw [get_wrench] at h
  cases hc : read_counts st env clock with
  | error e => simp [hc] at h
  | ok p =>
    obtain ⟨counts, c1⟩ := p
    simp only [hc, Bool.false_eq_true, if_false, Except.ok.injEq,
      Prod.mk.injEq] at h
    have hlen := read_counts_length st env clock counts c1 hc
    obtain ⟨hw, -⟩ := h
    constructor
    · intro h1 hb
      have hz : counts.getD 1 0 = 0 := List.getD_eq_default _ _ (by omega)
      have hfy : w.fy =
          ((counts.getD 1 0 : Int) : ℚ) * st.n_per_count - st.bias.fy := by
        rw [← hw]
      rw [hfy, hz, hb]
      simp
    · intro h2 hb
      have hz : counts.getD 2 0 = 0 := List.getD_eq_default _ _ (by omega)
      have hfz : w.fz =
          ((counts.getD 2 0 : Int) : ℚ) * st.n_per_count - st.bias.fz := by
        rw [← hw]
      rw [hfz, hz, hb]
      simp

/-- Sampling a degraded engine keeps the running Fy and Fz sums at their
initial values. -/
lemma bias_loop_degraded (st : SensorState) (env : Env) :
    ∀ (n clock : Nat) (sx sy sz a b c : ℚ) (c2 : Nat),
      bias_sample_loop st env clock n sx sy sz = .ok (a, b, c, c2) →
      (st.axis_device_ids.length ≤ 1 → b = sy) ∧
      (st.axis_device_ids.length ≤ 2 → c = sz) := by
  intro n
  induction n with
  | zero =>
    intro clock sx sy sz a b c c2 h
    simp only [bias_sample_loop, Except.ok.injEq, Prod.mk.injEq] at h
    exact ⟨fun _ => h.2.1.symm, fun _ => h.2.2.1.symm⟩
  | succ n ih =>
    intro clock sx sy sz a b c c2 h
    rw [bias_sample_loop] at h
    cases hg : get_wrench st env clock true with
    | error e => simp [hg] at h
    | ok p =>
      obtain ⟨w, c1⟩ := p
      simp only [hg] at h
      have hd := get_wrench_unbiased_degraded st env clock w c1 hg
      have hr := ih c1 (sx + w.fx) (sy + w.fy) (sz + w.fz) a b c c2 h
      constructor
      · intro h1
        rw [hr.1 h1, hd.1 h1, add_zero]
      · intro h2
        rw [hr.2 h2, hd.2 h2, add_zero]

/-- The engine constructor validates the scale factor, derives it from
range over full scale when not overridden, and starts with a zero
bias. -/
lemma mk_sensor_ok (address : Sum Nat (List Nat)) (ids : List Nat)
    (np : Option ℚ) (fr cf : ℚ) (st0 : SensorState)
    (h : mk_sensor address ids np fr cf = .ok st0) :
    0 < st0.n_per_count ∧ st0.bias = zeroWrench ∧
    st0.axis_device_ids = ids ∧
    (np = none → st0.n_per_count = fr / cf) ∧
    (∀ q, np = some q → st0.n_per_count = q) := by
  rw [mk_sensor.eq_def] at h
  split at h
  · exact absurd h (by simp)
  · next hn =>
    have hpos : 0 < derived_scale np fr cf := not_le.mp hn
    have hnp : ∀ st1 : SensorState, st1.n_per_count = derived_scale np fr cf →
        (np = none → st1.n_per_count = fr / cf) ∧
        (∀ q, np = some q → st1.n_per_count = q) := by
      intro st1 he
      constructor
      · intro hq
        subst hq
        rw [he]
        rfl
      · intro q hq
        subst hq
        rw [he]
        rfl
    split at h
    · simp only [Except.ok.injEq] at h
      subst h
      exact ⟨hpos, rfl, rfl, (hnp _ rfl).1, (hnp _ rfl).2⟩
    · split at h
      · exact absurd h (by simp)
      · simp only [Except.ok.injEq] at h
        subst h
        exact ⟨hpos, rfl, rfl, (hnp _ rfl).1, (hnp _ rfl).2⟩

/-- Reachable states of a degraded engine keep a bias whose missing force
channels are zero. -/
lemma reachable_bias_degraded (st0 st : SensorState) (hr : Reachable st0 st)
    (h0 : st0.bias = zeroWrench) :
    (st0.axis_device_ids.length ≤ 1 → st.bias.fy = 0) ∧
    (st0.axis_device_ids.length ≤ 2 → st.bias.fz = 0) := by
  induction hr with
  | refl => rw [h0]; exact ⟨fun _ => rfl, fun _ => rfl⟩
  | unbias_step st hr ih => exact ⟨fun _ => rfl, fun _ => rfl⟩
  | bias_step st env clock samples hr ih =>
    have hids : st.axis_device_ids = st0.axis_device_ids :=
      (reachable_fields st0 st hr).1
    rw [SensorState.bias_op]
    split
    · exact ih
    · split
      · exact ih
      · next sum_fx sum_fy sum_fz c2 heq =>
        have hd := bias_loop_degraded st env samples.toNat clock 0 0 0
          sum_fx sum_fy sum_fz c2 heq
        constructor
        · intro h1
          have hz : sum_fy = 0 := hd.1 (by rw [hids]; exact h1)
          show sum_fy / (samples : ℚ) = 0
          rw [hz, zero_div]
        · intro h2
          have hz : sum_fz = 0 := hd.2 (by rw [hids]; exact h2)
          show sum_fz / (samples : ℚ) = 0
          rw [hz, zero_div]
  | scale_step st st2 v hr heq ih =>
    rw [(set_n_per_count_ok st v st2 heq).2]
    exact ih

/-- C8: for an engine constructed with fewer than three configured axes
and mutated by any sequence of engine operations, every read (biased or
unbiased) that succeeds reports exactly zero on each missing force
channel: Fy and Fz with one configured axis, Fz with two. -/
theorem degraded_channels (address : Sum Nat (List Nat)) (ids : List Nat)
    (np : Option ℚ) (fr cf : ℚ) (st0 st : SensorState) (env : Env)
    (clock : Nat) (u : Bool) (w : Wrench) (c2 : Nat)
    (hmk : mk_sensor address ids np fr cf = .ok st0)
    (hr : Reachable st0 st)
    (hw : get_wrench st env clock u = .ok (w, c2)) :
    (ids.length ≤ 1 → w.fy = 0 ∧ w.fz = 0) ∧
    (ids.length ≤ 2 → w.fz = 0) := by
  obtain ⟨-, hbias0, hids0, -, -⟩ :=
    mk_sensor_ok address ids np fr cf st0 hmk
  have hids : st.axis_device_ids = ids :=
    (reachable_fields st0 st hr).1.trans hids0
  have hbias := reachable_bias_degraded st0 st hr hbias0
  rw [hids0] at hbias
  cases u with
  | true =>
    have hd := get_wrench_unbiased_degraded st env clock w c2 hw
    rw [hids] at hd
    exact ⟨fun h1 => ⟨hd.1 h1, hd.2 (by omega)⟩, fun h2 => hd.2 h2⟩
  | false =>
    have hd := get_wrench_biased_degraded st env clock w c2 hw
    rw [hids] at hd
    refine ⟨fun h1 => ⟨hd.1 h1 (hbias.1 h1), hd.2 (by omega) (hbias.2 (by omega))⟩,
      fun h2 => hd.2 h2 (hbias.2 h2)⟩

/-- Witness: a one-axis engine constructed by mk_sensor reads Fy = 0 and
Fz = 0 on a concrete environment, both unbiased and after no mutation. -/
theorem degraded_channels_witness :
    ∃ w c2, get_wrench sampleState oneAxisEnv 0 true = .ok (w, c2) ∧
      w.fy = 0 ∧ w.fz = 0 := by
  have e40000 : u16_to_s16 40000 = -25536 := by decide
  have r40000 : read_u16_attempts [.ok [40000]] 1 = .ok 40000 := by decide
  have hmk : mk_sensor (.inl 0) [1] (some 1) 20 32768 = .ok sampleState := by
    norm_num [mk_sensor, derived_scale, sampleState, zeroWrench]
  have hw : get_wrench sampleState oneAxisEnv 0 true =
      .ok (⟨-25536, 0, 0, 0, 0, 0⟩, 1) := by
    norm_num [get_wrench, read_counts, read_raw_u16, read_raw_aux,
      sampleState, oneAxisEnv, r40000, e40000]
  have hd := degraded_channels (.inl 0) [1] (some 1) 20 32768 sampleState
    sampleState oneAxisEnv 0 true ⟨-25536, 0, 0, 0, 0, 0⟩ 1 hmk
    (Reachable.refl sampleState) hw
  exact ⟨⟨-25536, 0, 0, 0, 0, 0⟩, 1, hw, hd.1 (by decide)⟩

/-- C9: the scale factor is strictly positive: the constructor derives it
as range over full scale unless overridden and rejects a non-positive
result, the setter rejects non-positive values and stores positive
ones, and every state reachable through the engine operations keeps it
positive, so every read multiplies counts by a positive scale. -/
theorem scale_factor_positive :
    (∀ (address : Sum Nat (List Nat)) (ids : List Nat) (np : Option ℚ)
      (fr cf : ℚ) (st0 : SensorState),
      mk_sensor address ids np fr cf = .ok st0 →
      0 < st0.n_per_count ∧ (np = none → st0.n_per_count = fr / cf)) ∧
    (∀ (st : SensorState) (v : ℚ), v ≤ 0 →
      set_n_per_count st v = .error (.configError "n_per_count must be > 0")) ∧
    (∀ (st : SensorState) (v : ℚ) (st2 : SensorState),
      set_n_per_count st v = .ok st2 →
      st2.n_per_count = v ∧ 0 < st2.n_per_count) ∧
    (∀ st0 st : SensorState, 0 < st0.n_per_count → Reachable st0 st →
      0 < st.n_per_count) := by
  refine ⟨fun address ids np fr cf st0 h => ?_, fun st v hv => ?_,
    fun st v st2 h => ?_, reachable_scale_pos⟩
  · obtain ⟨h1, -, -, h4, -⟩ := mk_sensor_ok address ids np fr cf st0 h
    exact ⟨h1, h4⟩
  · rw [set_n_per_count, if_pos hv]
  · obtain ⟨hv, h2⟩ := set_n_per_count_ok st v st2 h
    rw [h2]
    exact ⟨rfl, hv⟩

/-- Witness: the constructor's derived default 20 / 32768 is positive, the
setter rejects zero, and a one-step reachable state keeps a positive
scale. -/
theorem scale_factor_positive_witness :
    (∃ st0, mk_sensor (.inl 0) [1, 2, 3] none 20 32768 = .ok st0 ∧
      0 < st0.n_per_count) ∧
    set_n_per_count sampleState 0 =
      .error (.configError "n_per_count must be > 0") ∧
    0 < (unbias sampleState).n_per_count := by
  refine ⟨?_, scale_factor_positive.2.1 sampleState 0 le_rfl, ?_⟩
  · have hds : derived_scale none 20 32768 = 20 / 32768 := rfl
    have hmk : mk_sensor (.inl 0) [1, 2, 3] none 20 32768 =
        .ok ⟨[1, 2, 3], [0, 0, 0], 20 / 32768, zeroWrench⟩ := by
      rw [mk_sensor.eq_def, hds]
      norm_num [zeroWrench]
    exact ⟨_, hmk, (scale_factor_positive.1 (.inl 0) [1, 2, 3] none 20 32768
      _ hmk).1⟩
  · exact scale_factor_positive.2.2.2 sampleState (unbias sampleState)
      (by norm_num [sampleState])
      (Reachable.unbias_step sampleState sampleState (Reachable.refl sampleState))
